import Mathlib

/-!
Verification of the WebGPU 2D max-pool kernel generator
(`src/backends/webgpu/src/kernels/maxpool_webgpu.ts`).

The generator is a pure constructor: from a `Conv2DInfo` it computes a
3-axis dispatch size and emits the text of a compute shader.  We embed

* the dispatch-size computation and program metadata (`build`),
* the arithmetic of the emitted `getOutputCoords` function
  (`decompose`, `getOutputCoords`),
* the semantics of the emitted shader body
  (`getValue`, `innerLoop`, `windowMax`, `shaderMain`),

directly from the TypeScript source.  JavaScript numbers that may become
NaN (out-of-range array indexing on shapes of rank other than 4) are
modelled as `Option Nat`, with `none` playing the role of NaN.  Shader
buffer values are modelled as rationals: the generated code only compares
and copies them (`max`), so exact arithmetic is faithful.
-/

namespace MaxPoolGen

/-- Pooling geometry, mirroring the fields of `Conv2DInfo` that the
constructor reads (`padInfo.top`/`padInfo.left` are flattened to
`padTop`/`padLeft`).  Shapes are kept as lists so that inputs of rank
other than 4 can be expressed. -/
structure Conv2DInfo where
  inShape : List Nat
  outShape : List Nat
  strideHeight : Nat
  strideWidth : Nat
  dilationHeight : Nat
  dilationWidth : Nat
  padTop : Nat
  padLeft : Nat
  effectiveFilterHeight : Nat
  effectiveFilterWidth : Nat
  inHeight : Nat
  inWidth : Nat
  deriving DecidableEq, Repr

/-- The fixed tile size of the program: `tileSize: [2, 2, 1]`. -/
def tileSize : Nat × Nat × Nat := (2, 2, 1)

/-- The fixed dispatch arrangement `[[1], [2], [0, 3]]`: axis 0 covers the
height dimension, axis 1 the width dimension, axis 2 the (batch, channel)
pair. -/
def dispatchArrangement : List (List Nat) := [[1], [2], [0, 3]]

/-- `Math.ceil(a / t)` for natural `a` and positive natural `t`. -/
def ceilDiv (a t : Nat) : Nat := (a + t - 1) / t

/-- Modelled from the spec: `util.computeStrides` of tfjs-core (imported by
the source but not itself under `src/`): row-major strides of a shape,
omitting the trailing stride 1 — for rank `n` it returns `n - 1` entries,
the entry for dimension `i` being the product of the sizes of all later
dimensions. -/
def computeStrides (shape : List Nat) : List Nat :=
  match shape with
  | [] => []
  | [_] => []
  | _ :: rest => rest.prod :: computeStrides rest

/-- The arithmetic of the emitted multi-dimension decomposition
(`generateGetOutputCoords`): given the stride list of a group and a flat
index, each stride yields `coordinate := remainder / stride` followed by
`remainder -= coordinate * stride`; the last stride additionally yields the
final coordinate as the remaining remainder (`d_last := index - d * stride`),
and a group with no strides passes the index through unchanged. -/
def decompose : List Nat → Nat → List Nat
  | [], idx => [idx]
  | [s], idx => [idx / s, idx - idx / s * s]
  | s :: s2 :: rest, idx => idx / s :: decompose (s2 :: rest) (idx - idx / s * s)

/-- Row-major flattening, accumulator form (Horner evaluation). -/
def flattenAux : Nat → List Nat → List Nat → Nat
  | acc, c :: cs, d :: ds => flattenAux (acc * d + c) cs ds
  | acc, _, _ => acc

/-- Modelled from the spec: `getFlatIndex(coords, shape)` of the execution
environment — row-major flattening of coordinates against a shape. -/
def flattenRM (coords dims : List Nat) : Nat := flattenAux 0 coords dims

/-- The emitted `getOutputCoords` under the fixed arrangement
`[[1], [2], [0, 3]]`: `d1` and `d2` are the x and y invocation-id
components unchanged; the z component is decomposed over the strides of
the restricted shape `[outShape[0], outShape[3]]` into `d0` and `d3`. -/
def getOutputCoords (outShape : List Nat) (gid : Nat × Nat × Nat) :
    Nat × Nat × Nat × Nat :=
  let group := decompose
    (computeStrides [outShape.getD 0 0, outShape.getD 3 0]) gid.2.2
  (group.getD 0 0, gid.1, gid.2.1, group.getD 1 0)

/-- Key algebraic fact about the emitted decomposition: flattening the
decomposed coordinates back against the group's shape recovers
`acc * shape.prod + f`. -/
theorem flattenAux_decompose (shape : List Nat) (hne : shape ≠ [])
    (f acc : Nat) :
    flattenAux acc (decompose (computeStrides shape) f) shape =
      acc * shape.prod + f := by
  induction shape generalizing f acc with
  | nil => exact absurd rfl hne
  | cons a rest ih =>
    cases rest with
    | nil =>
      simp [computeStrides, decompose, flattenAux, List.prod]
    | cons e t =>
      cases t with
      | nil =>
        have hdm : f / e * e ≤ f := Nat.div_mul_le_self f e
        simp only [computeStrides, decompose, flattenAux, List.prod_cons,
          List.prod_nil, List.prod_singleton]
        have : (acc * a + f / e) * e + (f - f / e * e) =
            acc * (a * e) + f := by
          rw [Nat.add_mul, Nat.mul_assoc]
          omega
        simpa [flattenAux] using this
      | cons g t2 =>
        have hrest : (e :: g :: t2) ≠ ([] : List Nat) := by simp
        have hstep : computeStrides (a :: e :: g :: t2) =
            (e :: g :: t2).prod :: computeStrides (e :: g :: t2) := rfl
        have hS : computeStrides (e :: g :: t2) =
            (g :: t2).prod :: computeStrides (g :: t2) := rfl
        set P := (e :: g :: t2).prod with hP
        have hdm : f / P * P ≤ f := Nat.div_mul_le_self f P
        rw [hstep]
        have hcons : decompose (P :: computeStrides (e :: g :: t2)) f =
            f / P :: decompose (computeStrides (e :: g :: t2))
              (f - f / P * P) := by
          rw [hS]; rfl
        rw [hcons]
        have := ih hrest (f - f / P * P) (acc * a + f / P)
        simp only [flattenAux]
        rw [this]
        have : (acc * a + f / P) * (e :: g :: t2).prod + (f - f / P * P) =
            acc * (a :: e :: g :: t2).prod + f := by
          rw [List.prod_cons (a := a), ← hP, Nat.add_mul, Nat.mul_assoc]
          omega
        rw [this]

/-- Round trip of the decomposition against row-major flattening. -/
theorem flattenRM_decompose (shape : List Nat) (hne : shape ≠ []) (f : Nat) :
    flattenRM (decompose (computeStrides shape) f) shape = f := by
  have := flattenAux_decompose shape hne f 0
  simpa [flattenRM] using this

/-- C1.  Coordinate-recovery round-trip: for every rank-4 output shape of
positive sizes and every flat index `gz` below the product of the
(batch, channel) group's sizes, the emitted decomposition of the axis-2
invocation-id component followed by row-major re-flattening against the
restricted shape `[outShape[0], outShape[3]]` recovers `gz` exactly, and
the single-dimension groups of axes 0 and 1 pass their invocation-id
components through unchanged. -/
theorem coordinate_roundtrip (o0 o1 o2 o3 : Nat)
    (h0 : 0 < o0) (h1 : 0 < o1) (h2 : 0 < o2) (h3 : 0 < o3)
    (gx gy gz : Nat) (hf : gz < o0 * o3) :
    flattenRM [(getOutputCoords [o0, o1, o2, o3] (gx, gy, gz)).1,
               (getOutputCoords [o0, o1, o2, o3] (gx, gy, gz)).2.2.2]
      [o0, o3] = gz ∧
    (getOutputCoords [o0, o1, o2, o3] (gx, gy, gz)).2.1 = gx ∧
    (getOutputCoords [o0, o1, o2, o3] (gx, gy, gz)).2.2.1 = gy := by
  refine ⟨?_, rfl, rfl⟩
  have hne : ([o0, o3] : List Nat) ≠ [] := by simp
  have hrt := flattenRM_decompose [o0, o3] hne gz
  have hshape : computeStrides [o0, o3] = [o3] := by
    simp [computeStrides]
  rw [hshape] at hrt
  simpa [getOutputCoords, decompose] using hrt

/-- Witness for C1 at `outputShape = [2, 3, 4, 5]`, `gz = 7`. -/
theorem coordinate_roundtrip_witness :
    (0 < 2 ∧ 0 < 3 ∧ 0 < 4 ∧ 0 < 5 ∧ 7 < 2 * 5) ∧
    (flattenRM [(getOutputCoords [2, 3, 4, 5] (1, 2, 7)).1,
                (getOutputCoords [2, 3, 4, 5] (1, 2, 7)).2.2.2]
      [2, 5] = 7 ∧
     (getOutputCoords [2, 3, 4, 5] (1, 2, 7)).2.1 = 1 ∧
     (getOutputCoords [2, 3, 4, 5] (1, 2, 7)).2.2.1 = 2) :=
  ⟨by decide,
   coordinate_roundtrip 2 3 4 5 (by decide) (by decide) (by decide)
     (by decide) 1 2 7 (by decide)⟩

/-- JavaScript multiplication on numbers that may be NaN (`none`):
multiplying by `undefined`/NaN yields NaN, which propagates. -/
def jsMul : Option Nat → Option Nat → Option Nat
  | some a, some b => some (a * b)
  | _, _ => none

/-- `this.outputShape[d]` in JavaScript: indexing past the end of the
array yields `undefined` (`none`), which arithmetic then turns into NaN. -/
def jsIndex (shape : List Nat) (d : Nat) : Option Nat := shape.get? d

/-- `Math.ceil(product / tile)` with a possibly-NaN numerator and a
positive literal tile size (`Math.ceil(NaN)` is NaN). -/
def jsCeilDiv : Option Nat → Nat → Option Nat
  | some a, t => some (ceilDiv a t)
  | none, _ => none

/-- The local `arrayProduct` helper of the constructor: throws on an empty
array, otherwise multiplies the elements left to right starting from 1. -/
def arrayProduct (arr : List (Option Nat)) : Except String (Option Nat) :=
  match arr with
  | [] => Except.error ("Cannot find product of empty array.")
  | _ => Except.ok (arr.foldl jsMul (some 1))

/-- The record assembled by the `MaxPoolProgram` constructor.  The
`userCode` string's behavior is modelled separately (`shaderMain`). -/
structure MaxPoolProgram where
  outputShape : List Nat
  dispatch : Option Nat × Option Nat × Option Nat
  variableNames : List String
  uniforms : String
  tileSize : Nat × Nat × Nat
  deriving DecidableEq, Repr

/-- The `MaxPoolProgram` constructor: computes the three dispatch sizes
from the fixed arrangement and tile size and packages the fixed metadata.
The only possible failure is `arrayProduct` throwing on an empty group. -/
def build (convInfo : Conv2DInfo) : Except String MaxPoolProgram := do
  let outputShape := convInfo.outShape
  let g0 ← arrayProduct
    ((dispatchArrangement.getD 0 []).map (jsIndex outputShape))
  let g1 ← arrayProduct
    ((dispatchArrangement.getD 1 []).map (jsIndex outputShape))
  let g2 ← arrayProduct
    ((dispatchArrangement.getD 2 []).map (jsIndex outputShape))
  Except.ok
    { outputShape := outputShape
      dispatch := (jsCeilDiv g0 tileSize.1, jsCeilDiv g1 tileSize.2.1,
        jsCeilDiv g2 tileSize.2.2)
      variableNames := ["x"]
      uniforms := "uvec4 inpShape, outShape; uvec2 pad, stride;"
      tileSize := tileSize }

/-- Construction never fails: all three groups of the fixed arrangement
are non-empty, so `arrayProduct` never sees an empty array. -/
theorem build_isOk (info : Conv2DInfo) :
    ∃ p, build info = Except.ok p ∧ p.outputShape = info.outShape ∧
      p.variableNames = ["x"] ∧
      p.uniforms = "uvec4 inpShape, outShape; uvec2 pad, stride;" ∧
      p.tileSize = (2, 2, 1) :=
  ⟨_, rfl, rfl, rfl, rfl, rfl⟩

/-- Rounding up cannot lose elements: `a ≤ ceil(a / t) * t` for `t > 0`. -/
theorem le_ceilDiv_mul (a t : Nat) (ht : 0 < t) : a ≤ ceilDiv a t * t := by
  unfold ceilDiv
  have h := Nat.div_add_mod (a + t - 1) t
  have h2 : (a + t - 1) % t < t := Nat.mod_lt _ ht
  have h3 : t * ((a + t - 1) / t) = (a + t - 1) / t * t := Nat.mul_comm _ _
  rw [h3] at h
  generalize (a + t - 1) / t * t = m at *
  omega

/-- C2.  Dispatch-size computation and coverage: for every rank-4 output
shape of positive sizes, the constructor's dispatch is
`ceil(outShape[1]/2)`, `ceil(outShape[2]/2)`, `ceil(outShape[0]*outShape[3]/1)`
(the products over the fixed groups `[[1],[2],[0,3]]` divided by the tile
sizes, rounded up), and the dispatch grid scaled by the tile size covers
every output element:
`d0*d1*d2*t0*t1*t2 ≥ outShape[0]*outShape[1]*outShape[2]*outShape[3]`. -/
theorem dispatch_formula_and_coverage (o0 o1 o2 o3 : Nat)
    (h0 : 0 < o0) (h1 : 0 < o1) (h2 : 0 < o2) (h3 : 0 < o3)
    (info : Conv2DInfo) (hout : info.outShape = [o0, o1, o2, o3]) :
    ∃ p, build info = Except.ok p ∧
      p.dispatch = (some (ceilDiv o1 tileSize.1),
        some (ceilDiv o2 tileSize.2.1),
        some (ceilDiv (o0 * o3) tileSize.2.2)) ∧
      o0 * o1 * o2 * o3 ≤
        ceilDiv o1 tileSize.1 * ceilDiv o2 tileSize.2.1 *
          ceilDiv (o0 * o3) tileSize.2.2 *
          tileSize.1 * tileSize.2.1 * tileSize.2.2 := by
  refine ⟨_, rfl, ?_, ?_⟩
  · simp [build, arrayProduct, dispatchArrangement, jsIndex, jsMul,
      jsCeilDiv, hout, tileSize]
  · have hA := le_ceilDiv_mul o1 2 (by norm_num)
    have hB := le_ceilDiv_mul o2 2 (by norm_num)
    have hC := le_ceilDiv_mul (o0 * o3) 1 (by norm_num)
    calc o0 * o1 * o2 * o3 = o1 * o2 * (o0 * o3) := by ring
      _ ≤ (ceilDiv o1 2 * 2) * (ceilDiv o2 2 * 2) *
            (ceilDiv (o0 * o3) 1 * 1) :=
          Nat.mul_le_mul (Nat.mul_le_mul hA hB) hC
      _ = ceilDiv o1 tileSize.1 * ceilDiv o2 tileSize.2.1 *
            ceilDiv (o0 * o3) tileSize.2.2 *
            tileSize.1 * tileSize.2.1 * tileSize.2.2 := by
          simp [tileSize]; ring

/-- Witness for C2 at `outputShape = [2, 3, 5, 4]`. -/
theorem dispatch_formula_and_coverage_witness :
    (0 < 2 ∧ 0 < 3 ∧ 0 < 5 ∧ 0 < 4) ∧
    (∃ p, build
        { inShape := [2, 6, 10, 4], outShape := [2, 3, 5, 4],
          strideHeight := 2, strideWidth := 2, dilationHeight := 1,
          dilationWidth := 1, padTop := 0, padLeft := 0,
          effectiveFilterHeight := 2, effectiveFilterWidth := 2,
          inHeight := 6, inWidth := 10 } = Except.ok p ∧
      p.dispatch = (some (ceilDiv 3 tileSize.1),
        some (ceilDiv 5 tileSize.2.1),
        some (ceilDiv (2 * 4) tileSize.2.2)) ∧
      2 * 3 * 5 * 4 ≤
        ceilDiv 3 tileSize.1 * ceilDiv 5 tileSize.2.1 *
          ceilDiv (2 * 4) tileSize.2.2 *
          tileSize.1 * tileSize.2.1 * tileSize.2.2) :=
  ⟨by decide,
   dispatch_formula_and_coverage 2 3 5 4 (by decide) (by decide)
     (by decide) (by decide) _ rfl⟩

/-- A rank-3 geometry: the constructor performs no rank validation. -/
def infoRank3 : Conv2DInfo :=
  { inShape := [4, 4, 3], outShape := [1, 2, 3], strideHeight := 1,
    strideWidth := 1, dilationHeight := 1, dilationWidth := 1,
    padTop := 0, padLeft := 0, effectiveFilterHeight := 2,
    effectiveFilterWidth := 2, inHeight := 4, inWidth := 4 }

/-- C7 counterexample: for a rank-3 `outputShape` the build operation does
NOT fail — it succeeds and returns a program (whose axis-2 dispatch size is
NaN, modelled as `none`, because `outputShape[3]` is `undefined`). -/
theorem no_rank_validation_cex :
    build infoRank3 = Except.ok
      { outputShape := [1, 2, 3],
        dispatch := (some 1, some 2, none),
        variableNames := ["x"],
        uniforms := "uvec4 inpShape, outShape; uvec2 pad, stride;",
        tileSize := (2, 2, 1) } := by
  rfl

/-- C7 amended: the build operation performs no rank validation at all —
it succeeds for every input geometry, whatever the rank of the supplied
shapes (producing NaN dispatch components when `outputShape` has rank
below 4); its only error branch is the empty-group product, which the
fixed grouping never triggers. -/
theorem no_rank_validation (info : Conv2DInfo) :
    ∃ p, build info = Except.ok p := by
  obtain ⟨p, hp, -⟩ := build_isOk info
  exact ⟨p, hp⟩

/-- Helper: a left fold of JavaScript multiplication over defined values
computes the product. -/
theorem foldl_jsMul_map_some (arr : List Nat) (a : Nat) :
    (arr.map some).foldl jsMul (some a) = some (a * arr.prod) := by
  induction arr generalizing a with
  | nil => simp [jsMul]
  | cons x xs ih =>
    simp only [List.map_cons, List.foldl_cons, jsMul, List.prod_cons]
    rw [ih (a * x), Nat.mul_assoc]

/-- C8.  Empty-product rejection: `arrayProduct` errors on the empty array
(rather than returning 1) and returns the product of the elements
otherwise; every group of the fixed arrangement `[[1],[2],[0,3]]` is
non-empty, so the error branch is unreachable and construction always
fully succeeds. -/
theorem arrayProduct_spec :
    arrayProduct [] = Except.error ("Cannot find product of empty array.") ∧
    (∀ arr : List Nat, arr ≠ [] →
      arrayProduct (arr.map some) = Except.ok (some arr.prod)) ∧
    (∀ g ∈ dispatchArrangement, g ≠ []) ∧
    (∀ info : Conv2DInfo, ∃ p, build info = Except.ok p) := by
  refine ⟨rfl, ?_, by decide, ?_⟩
  · intro arr hne
    cases arr with
    | nil => exact absurd rfl hne
    | cons x xs =>
      show Except.ok (((x :: xs).map some).foldl jsMul (some 1)) = _
      rw [foldl_jsMul_map_some, Nat.one_mul]
  · intro info
    obtain ⟨p, hp, -⟩ := build_isOk info
    exact ⟨p, hp⟩

/-- Witness for C8 at the array `[2, 3]` and the first group `[1]`. -/
theorem arrayProduct_spec_witness :
    (([2, 3] : List Nat) ≠ [] ∧ ([1] : List Nat) ∈ dispatchArrangement) ∧
    arrayProduct (([2, 3] : List Nat).map some) =
      Except.ok (some ([2, 3] : List Nat).prod) ∧
    ([1] : List Nat) ≠ [] :=
  ⟨by decide,
   arrayProduct_spec.2.1 [2, 3] (by decide),
   arrayProduct_spec.2.2.1 [1] (by decide)⟩

/-- C9.  Fixed program metadata: for every geometry the returned program
has input-buffer name list exactly `["x"]`, tile size `(2, 2, 1)`, the
fixed uniform declaration string (two 4-element shape vectors, two
2-element vectors for padding and stride), and an `outputShape` field that
is the caller-supplied output shape unmodified. -/
theorem program_metadata (info : Conv2DInfo) :
    ∃ p, build info = Except.ok p ∧
      p.variableNames = ["x"] ∧
      p.tileSize = (2, 2, 1) ∧
      p.uniforms = "uvec4 inpShape, outShape; uvec2 pad, stride;" ∧
      p.outputShape = info.outShape := by
  obtain ⟨p, hp, ho, hv, hu, ht⟩ := build_isOk info
  exact ⟨p, hp, hv, ht, hu, ho⟩

/-- The loop header `for (w = 0; w < bound; w += step)` of the emitted
window scans: the visited loop-counter values, with explicit fuel.  For a
positive step — the generated loops step by the positive dilations —
`bound` units of fuel always suffice, so the model is exact there (a zero
step would loop forever in the generated shader). -/
def loopVisitsAux : Nat → Nat → Nat → Nat → List Nat
  | 0, _, _, _ => []
  | fuel + 1, bound, step, cur =>
    if cur < bound then cur :: loopVisitsAux fuel bound step (cur + step)
    else []

/-- Visited loop-counter values of `for (w = 0; w < bound; w += step)`. -/
def loopVisits (bound step : Nat) : List Nat :=
  loopVisitsAux bound bound step 0

/-- The same visited loop-counter values as signed integers, as the
emitted loops declare `int wR`/`int wC`. -/
def loopVisitsZ (bound step : Nat) : List Int :=
  (loopVisits bound step).map (fun n => (n : Int))

/-- Row-major flattening over signed coordinates, accumulator form. -/
def flattenZAux : Int → List Int → List Int → Int
  | acc, c :: cs, d :: ds => flattenZAux (acc * d + c) cs ds
  | acc, _, _ => acc

/-- Modelled from the spec: `getFlatIndex` applied to `ivec4` coordinates,
as the generated shader does for buffer reads (signed, since a guarded-out
column coordinate may be negative). -/
def getFlatIndexZ (coords dims : List Int) : Int := flattenZAux 0 coords dims

/-- The emitted read helper `getValue(batch, xR, xC, d)`: substitutes the
initialization value 0.0 when the column is outside `[0, inWidth)`, and
otherwise reads the input buffer at the row-major flat index against the
embedded input shape.  The row coordinate is never checked here. -/
def getValue (g : Conv2DInfo) (x : Int → ℚ) (batch xR xC d : Int) : ℚ :=
  if xC < 0 ∨ (g.inWidth : Int) ≤ xC then 0
  else x (getFlatIndexZ [batch, xR, xC, d]
    (g.inShape.map (fun n => (n : Int))))

/-- The emitted inner window loop over columns: `wC` runs from 0 below
`effectiveFilterWidth` in steps of `dilationWidth`, the read column is
`xCCorner + wC * dilationWidth` (the loop counter is multiplied by the
dilation again), and the accumulator becomes `max(value, acc)`. -/
def innerLoop (g : Conv2DInfo) (x : Int → ℚ) (batch d xR xCCorner : Int)
    (acc : ℚ) : ℚ :=
  (loopVisitsZ g.effectiveFilterWidth g.dilationWidth).foldl
    (fun a wC =>
      max (getValue g x batch xR
        (xCCorner + wC * (g.dilationWidth : Int)) d) a)
    acc

/-- The emitted outer window loop over rows, running maximum seeded at
0.0: a row outside `[0, inHeight)` is skipped via `continue`. -/
def windowMax (g : Conv2DInfo) (x : Int → ℚ)
    (batch d xRCorner xCCorner : Int) : ℚ :=
  (loopVisitsZ g.effectiveFilterHeight g.dilationHeight).foldl
    (fun a wR =>
      if xRCorner + wR < 0 ∨
          (g.inHeight : Int) ≤ xRCorner + wR then a
      else innerLoop g x batch d (xRCorner + wR) xCCorner a)
    0

/-- The flat output index an invocation computes and passes to
`setOutput`: `getFlatIndex(getOutputCoords(), outputShape)`. -/
def writtenIndex (g : Conv2DInfo) (gid : Nat × Nat × Nat) : Nat :=
  let coords := getOutputCoords g.outShape gid
  flattenRM [coords.1, coords.2.1, coords.2.2.1, coords.2.2.2]
    [g.outShape.getD 0 0, g.outShape.getD 1 0,
     g.outShape.getD 2 0, g.outShape.getD 3 0]

/-- The uniform values the execution environment binds for the declared
`uvec4 inpShape, outShape; uvec2 pad, stride;`. -/
structure ShaderUniforms where
  inpShape : List Nat
  outShape : List Nat
  pad : Nat × Nat
  stride : Nat × Nat
  deriving DecidableEq, Repr

/-- The emitted `main`: recovers the output coordinates, computes the
flat output index, the window corner (`coords.yz * strides - pads`, all
embedded literal constants), and the windowed maximum; the result pair is
what `setOutput(index, value)` receives.  The bound uniform values `uni`
are an argument because the shader declares them, but no emitted
statement reads them. -/
def shaderMain (g : Conv2DInfo) (uni : ShaderUniforms) (x : Int → ℚ)
    (gid : Nat × Nat × Nat) : Nat × ℚ :=
  let coords := getOutputCoords g.outShape gid
  let batch : Int := coords.1
  let d : Int := coords.2.2.2
  let index := writtenIndex g gid
  let xRCorner : Int := (coords.2.1 : Int) * g.strideHeight - g.padTop
  let xCCorner : Int := (coords.2.2.1 : Int) * g.strideWidth - g.padLeft
  (index, windowMax g x batch d xRCorner xCCorner)

/-- C10.  Uniform independence of the generated shader: the emitted main
body and read helper reference only embedded literal constants, never the
declared pad/stride (or shape) uniforms, so for a fixed geometry the
shader's behavior is identical under any two uniform bindings. -/
theorem uniform_noninterference (g : Conv2DInfo) (u1 u2 : ShaderUniforms)
    (x : Int → ℚ) (gid : Nat × Nat × Nat) :
    shaderMain g u1 x gid = shaderMain g u2 x gid := rfl

/-- The absolute input row coordinates visited by the emitted outer loop:
`xR = xRCorner + wR` with `wR = 0, dilationHeight, ... <
effectiveFilterHeight`. -/
def visitedRows (g : Conv2DInfo) (xRCorner : Int) : List Int :=
  (loopVisitsZ g.effectiveFilterHeight g.dilationHeight).map
    (fun wR => xRCorner + wR)

/-- The absolute input column coordinates visited by the emitted inner
loop: `xC = xCCorner + wC * dilationWidth` with `wC = 0, dilationWidth,
... < effectiveFilterWidth`. -/
def visitedCols (g : Conv2DInfo) (xCCorner : Int) : List Int :=
  (loopVisitsZ g.effectiveFilterWidth g.dilationWidth).map
    (fun wC => xCCorner + wC * (g.dilationWidth : Int))

/-- Follows the claim's words (C3): the columns the traversal is said to
visit — the window corner plus the loop offset, `xCCorner + wC`. -/
def visitedColsClaimed (g : Conv2DInfo) (xCCorner : Int) : List Int :=
  (loopVisitsZ g.effectiveFilterWidth g.dilationWidth).map
    (fun wC => xCCorner + wC)

/-- A dilation-2 geometry with effective filter extents 3. -/
def infoDilated : Conv2DInfo :=
  { inShape := [1, 8, 8, 1], outShape := [1, 3, 3, 1], strideHeight := 1,
    strideWidth := 1, dilationHeight := 2, dilationWidth := 2,
    padTop := 0, padLeft := 0, effectiveFilterHeight := 3,
    effectiveFilterWidth := 3, inHeight := 8, inWidth := 8 }

/-- C3 at the failing input `effectiveFilterWidth = 3`,
`dilationWidth = 2`, corner 0: the visited rows are `[0, 2]` (corner plus
loop offset, spaced by the dilation, as claimed) and the visit count is
`ceil(3/2) * ceil(3/2)`, but the visited columns are `[0, 4]` — the code
multiplies the already-dilated loop counter by the dilation once more —
not the claimed `[0, 2]`. -/
theorem dilated_traversal_bug :
    visitedRows infoDilated 0 = [0, 2] ∧
    visitedCols infoDilated 0 = [0, 4] ∧
    visitedColsClaimed infoDilated 0 = [0, 2] ∧
    visitedCols infoDilated 0 ≠ visitedColsClaimed infoDilated 0 ∧
    (visitedRows infoDilated 0).length *
      (visitedCols infoDilated 0).length = ceilDiv 3 2 * ceilDiv 3 2 := by
  decide

/-- Follows the spec's words (C5): the window maximum computed over only
the in-range rows — rows outside `[0, inHeight)` removed before folding,
each surviving row processed by the same inner loop. -/
def windowMaxInRange (g : Conv2DInfo) (x : Int → ℚ)
    (batch d xRCorner xCCorner : Int) : ℚ :=
  ((loopVisitsZ g.effectiveFilterHeight g.dilationHeight).filter
    (fun wR => !(decide (xRCorner + wR < 0 ∨
      (g.inHeight : Int) ≤ xRCorner + wR)))).foldl
    (fun a wR => innerLoop g x batch d (xRCorner + wR) xCCorner a)
    0

/-- A fold whose step skips elements satisfying `p` equals the plain fold
over the list with those elements filtered out. -/
theorem foldl_skip_filter {α β : Type} (p : β → Prop) [DecidablePred p]
    (f : α → β → α) (l : List β) (init : α) :
    l.foldl (fun a b => if p b then a else f a b) init =
      (l.filter (fun b => !(decide (p b)))).foldl f init := by
  induction l generalizing init with
  | nil => rfl
  | cons b bs ih =>
    by_cases hb : p b <;> simp [hb, ih]

/-- A fold whose step skips elements satisfying `p` leaves the
accumulator unchanged when every element satisfies `p`. -/
theorem foldl_skip_all {α β : Type} (p : β → Prop) [DecidablePred p]
    (f : α → β → α) :
    ∀ (l : List β) (init : α), (∀ b ∈ l, p b) →
      l.foldl (fun a b => if p b then a else f a b) init = init := by
  intro l
  induction l with
  | nil => intro init _; rfl
  | cons b bs ih =>
    intro init hall
    have hb : p b := hall b (List.mem_cons_self b bs)
    have hbs : ∀ c ∈ bs, p c := fun c hc => hall c (List.mem_cons_of_mem b hc)
    simp only [List.foldl_cons, if_pos hb]
    exact ih init hbs

/-- C5.  Boundary asymmetry: `getValue` returns the padding value 0
exactly on columns outside `[0, inWidth)` and otherwise reads the buffer
at the row-major flat index — with no condition on the row, which is
never checked inside the helper; the caller loop instead skips rows
outside `[0, inHeight)` via `continue`, so the window maximum equals the
fold over the in-range rows only (out-of-range rows contribute
nothing). -/
theorem boundary_asymmetry (g : Conv2DInfo) (x : Int → ℚ)
    (batch xR xC d xRCorner xCCorner : Int) :
    ((xC < 0 ∨ (g.inWidth : Int) ≤ xC) → getValue g x batch xR xC d = 0) ∧
    (0 ≤ xC → xC < (g.inWidth : Int) →
      getValue g x batch xR xC d =
        x (getFlatIndexZ [batch, xR, xC, d]
          (g.inShape.map (fun n => (n : Int))))) ∧
    windowMax g x batch d xRCorner xCCorner =
      windowMaxInRange g x batch d xRCorner xCCorner := by
  refine ⟨?_, ?_, ?_⟩
  · intro h
    simp [getValue, h]
  · intro h1 h2
    have hcond : ¬(xC < 0 ∨ (g.inWidth : Int) ≤ xC) := by
      push_neg
      exact ⟨h1, h2⟩
    simp [getValue, hcond]
  · unfold windowMax windowMaxInRange
    exact foldl_skip_filter _ _ _ _

/-- A 1x2 input-row geometry used to witness the boundary asymmetry. -/
def infoBoundary : Conv2DInfo :=
  { inShape := [1, 1, 2, 1], outShape := [1, 1, 2, 1], strideHeight := 1,
    strideWidth := 1, dilationHeight := 1, dilationWidth := 1,
    padTop := 0, padLeft := 0, effectiveFilterHeight := 1,
    effectiveFilterWidth := 1, inHeight := 1, inWidth := 2 }

/-- Witness for C5: column -1 is substituted by 0, column 1 at the
out-of-range row 5 is still read from the buffer, and the window maximum
coincides with the in-range-row fold. -/
theorem boundary_asymmetry_witness :
    (((-1 : Int) < 0 ∨ (infoBoundary.inWidth : Int) ≤ -1) ∧
      (0 : Int) ≤ 1 ∧ (1 : Int) < (infoBoundary.inWidth : Int)) ∧
    getValue infoBoundary (fun i => (i : ℚ)) 0 0 (-1) 0 = 0 ∧
    getValue infoBoundary (fun i => (i : ℚ)) 0 5 1 0 =
      (fun i => (i : ℚ)) (getFlatIndexZ [0, 5, 1, 0]
        (infoBoundary.inShape.map (fun n => (n : Int)))) ∧
    windowMax infoBoundary (fun i => (i : ℚ)) 0 0 0 0 =
      windowMaxInRange infoBoundary (fun i => (i : ℚ)) 0 0 0 0 :=
  ⟨by decide,
   (boundary_asymmetry infoBoundary (fun i => (i : ℚ)) 0 0 (-1) 0 0 0).1
     (by decide),
   (boundary_asymmetry infoBoundary (fun i => (i : ℚ)) 0 5 1 0 0 0).2.1
     (by decide) (by decide),
   (boundary_asymmetry infoBoundary (fun i => (i : ℚ)) 0 0 0 0 0 0).2.2⟩

/-- C6.  Zero-seeded maximum: the running maximum starts at 0.0, so an
invocation whose pooling window lies entirely outside the input's row
range — every visited row of the window at row corner
`gid.x * strideHeight - padTop` is skipped — writes exactly 0.0 to the
output, whatever the input buffer holds. -/
theorem zero_seeded_max (g : Conv2DInfo) (x : Int → ℚ)
    (batch d xRCorner xCCorner : Int)
    (hall : ∀ wR ∈ loopVisitsZ g.effectiveFilterHeight g.dilationHeight,
      xRCorner + wR < 0 ∨
        (g.inHeight : Int) ≤ xRCorner + wR) :
    windowMax g x batch d xRCorner xCCorner = 0 ∧
    ∀ (uni : ShaderUniforms) (gid : Nat × Nat × Nat),
      (shaderMain g uni x gid).2 =
        windowMax g x ((getOutputCoords g.outShape gid).1 : Int)
          ((getOutputCoords g.outShape gid).2.2.2 : Int)
          ((gid.1 : Int) * g.strideHeight - g.padTop)
          ((gid.2.1 : Int) * g.strideWidth - g.padLeft) := by
  constructor
  · unfold windowMax
    exact foldl_skip_all
      (fun wR : Int => xRCorner + wR < 0 ∨
        (g.inHeight : Int) ≤ xRCorner + wR)
      (fun a wR => innerLoop g x batch d (xRCorner + wR) xCCorner a)
      (loopVisitsZ g.effectiveFilterHeight g.dilationHeight) 0 hall
  · intro uni gid
    rfl

/-- A geometry whose top padding pushes the first output row's window
entirely above the input. -/
def infoAllPad : Conv2DInfo :=
  { inShape := [1, 1, 4, 1], outShape := [1, 1, 4, 1], strideHeight := 1,
    strideWidth := 1, dilationHeight := 1, dilationWidth := 1,
    padTop := 3, padLeft := 0, effectiveFilterHeight := 2,
    effectiveFilterWidth := 2, inHeight := 1, inWidth := 4 }

/-- Witness for C6: with `padTop = 3` and `effectiveFilterHeight = 2`,
invocation (0,0,0)'s window rows are -3 and -2, both outside `[0, 1)`,
and the computed value is 0 even though the buffer is constantly 7. -/
theorem zero_seeded_max_witness :
    (∀ wR ∈ loopVisitsZ infoAllPad.effectiveFilterHeight
        infoAllPad.dilationHeight,
      (-3 : Int) + wR < 0 ∨
        (infoAllPad.inHeight : Int) ≤ (-3 : Int) + wR) ∧
    windowMax infoAllPad (fun _ => (7 : ℚ)) 0 0 (-3) 0 = 0 ∧
    (shaderMain infoAllPad ⟨[], [], (0, 0), (0, 0)⟩ (fun _ => (7 : ℚ))
        (0, 0, 0)).2 =
      windowMax infoAllPad (fun _ => (7 : ℚ))
        ((getOutputCoords infoAllPad.outShape (0, 0, 0)).1 : Int)
        ((getOutputCoords infoAllPad.outShape (0, 0, 0)).2.2.2 : Int)
        (((0 : Nat) : Int) * infoAllPad.strideHeight - infoAllPad.padTop)
        (((0 : Nat) : Int) * infoAllPad.strideWidth - infoAllPad.padLeft) :=
  ⟨by decide,
   (zero_seeded_max infoAllPad (fun _ => (7 : ℚ)) 0 0 (-3) 0 (by decide)).1,
   (zero_seeded_max infoAllPad (fun _ => (7 : ℚ)) 0 0 (-3) 0 (by decide)).2
     ⟨[], [], (0, 0), (0, 0)⟩ (0, 0, 0)⟩

/-- Modelled from the spec: the execution environment launches
`dispatchSize[i] * tileSize[i]` invocations along dispatch axis `i` (the
workgroup grid scaled by the workgroup size); an invocation id is in the
grid when each component is below that bound. -/
def inGrid (g : Conv2DInfo) (gid : Nat × Nat × Nat) : Prop :=
  gid.1 < ceilDiv (g.outShape.getD 1 0) tileSize.1 * tileSize.1 ∧
  gid.2.1 < ceilDiv (g.outShape.getD 2 0) tileSize.2.1 * tileSize.2.1 ∧
  gid.2.2 < ceilDiv (g.outShape.getD 0 0 * g.outShape.getD 3 0)
    tileSize.2.2 * tileSize.2.2

instance inGridDecidable (g : Conv2DInfo) (gid : Nat × Nat × Nat) :
    Decidable (inGrid g gid) := by
  unfold inGrid
  infer_instance

/-- The trivial 1x1x1x1 geometry. -/
def infoUnit : Conv2DInfo :=
  { inShape := [1, 1, 1, 1], outShape := [1, 1, 1, 1], strideHeight := 1,
    strideWidth := 1, dilationHeight := 1, dilationWidth := 1,
    padTop := 0, padLeft := 0, effectiveFilterHeight := 1,
    effectiveFilterWidth := 1, inHeight := 1, inWidth := 1 }

/-- C4 counterexample: with `outputShape = [1, 1, 1, 1]` the dispatch
grid is one workgroup of 2x2x1 invocations; invocation (1, 0, 0) is in
the grid but computes flat output index 1, outside `[0, 1)` — the emitted
main has no bounds guard, so write exactness fails as stated. -/
theorem write_exactness_cex :
    inGrid infoUnit (1, 0, 0) ∧
    1 * 1 * 1 * 1 ≤ writtenIndex infoUnit (1, 0, 0) := by
  decide

/-- Unique digit decomposition: if `q * m + r = f` with `r < m` then `q`
and `r` are the quotient and remainder of `f` by `m`. -/
theorem radix_uniq {m q r f : Nat} (hm : 0 < m) (hr : r < m)
    (h : q * m + r = f) : q = f / m ∧ r = f % m := by
  subst h
  constructor
  · calc q = r / m + q := by rw [Nat.div_eq_of_lt hr, Nat.zero_add]
      _ = (r + m * q) / m := (Nat.add_mul_div_left r q hm).symm
      _ = (q * m + r) / m := by rw [Nat.add_comm, Nat.mul_comm]
  · calc r = r % m := (Nat.mod_eq_of_lt hr).symm
      _ = (r + q * m) % m := (Nat.add_mul_mod_self_right r q m).symm
      _ = (q * m + r) % m := by rw [Nat.add_comm]

/-- Mixed-radix upper bound: a digit pair below its bases stays below the
product of the bases. -/
theorem radix_bound {a b A B : Nat} (ha : a < A) (hb : b < B) :
    a * B + b < A * B := by
  calc a * B + b < a * B + B := by omega
    _ = (a + 1) * B := by ring
    _ ≤ A * B := Nat.mul_le_mul (Nat.succ_le_of_lt ha) (Nat.le_refl B)

/-- The code's last-group coordinate `index - d * stride` is the
remainder. -/
theorem sub_div_mul_eq_mod (n m : Nat) : n - n / m * m = n % m :=
  Nat.sub_eq_of_eq_add (by rw [Nat.add_comm, Nat.div_add_mod'])

theorem ceilDiv_one (a : Nat) : ceilDiv a 1 = a := by
  simp [ceilDiv]

theorem ceilDiv_two_mul (a : Nat) (h : 2 ∣ a) : ceilDiv a 2 * 2 = a := by
  obtain ⟨k, rfl⟩ := h
  unfold ceilDiv
  omega

/-- The flat index computed by an invocation, in closed form. -/
theorem writtenIndex_eq (g : Conv2DInfo) (o0 o1 o2 o3 : Nat)
    (hout : g.outShape = [o0, o1, o2, o3]) (gx gy gz : Nat) :
    writtenIndex g (gx, gy, gz) =
      ((gz / o3 * o1 + gx) * o2 + gy) * o3 + (gz - gz / o3 * o3) := by
  have hs : computeStrides [o0, o3] = [o3] := by simp [computeStrides]
  simp [writtenIndex, getOutputCoords, hout, hs, decompose, flattenRM,
    flattenAux]

/-- C4 amended: write exactness holds once the tile size divides each
axis's group product — `outputShape[1]` and `outputShape[2]` even (axis
2's tile is 1, so its product is always exact).  Then every invocation of
the dispatch grid writes a flat index inside `[0, o0*o1*o2*o3)` and every
such flat index is written by exactly one invocation.  (For odd
`outputShape[1]` or `outputShape[2]` the rounded-up grid contains extra
invocations which, lacking any bounds guard in the emitted main, write
out-of-range or duplicate indices — see the counterexample.) -/
theorem write_exactness_amended (g : Conv2DInfo) (o0 o1 o2 o3 : Nat)
    (hout : g.outShape = [o0, o1, o2, o3])
    (h0 : 0 < o0) (h1 : 0 < o1) (h2 : 0 < o2) (h3 : 0 < o3)
    (hd1 : 2 ∣ o1) (hd2 : 2 ∣ o2) :
    (∀ gid, inGrid g gid → writtenIndex g gid < o0 * o1 * o2 * o3) ∧
    (∀ f, f < o0 * o1 * o2 * o3 →
      ∃! gid, inGrid g gid ∧ writtenIndex g gid = f) := by
  have hg0 : g.outShape.getD 0 0 = o0 := by rw [hout]; rfl
  have hg1 : g.outShape.getD 1 0 = o1 := by rw [hout]; rfl
  have hg2 : g.outShape.getD 2 0 = o2 := by rw [hout]; rfl
  have hg3 : g.outShape.getD 3 0 = o3 := by rw [hout]; rfl
  have hb1 : ceilDiv (g.outShape.getD 1 0) tileSize.1 * tileSize.1 = o1 := by
    rw [hg1]
    exact ceilDiv_two_mul o1 hd1
  have hb2 : ceilDiv (g.outShape.getD 2 0) tileSize.2.1 * tileSize.2.1 =
      o2 := by
    rw [hg2]
    exact ceilDiv_two_mul o2 hd2
  have hb3 : ceilDiv (g.outShape.getD 0 0 * g.outShape.getD 3 0)
      tileSize.2.2 * tileSize.2.2 = o0 * o3 := by
    rw [hg0, hg3]
    show ceilDiv (o0 * o3) 1 * 1 = o0 * o3
    rw [ceilDiv_one, Nat.mul_one]
  have hgrid : ∀ gid : Nat × Nat × Nat, inGrid g gid ↔
      gid.1 < o1 ∧ gid.2.1 < o2 ∧ gid.2.2 < o0 * o3 := by
    intro gid
    unfold inGrid
    rw [hb1, hb2, hb3]
  constructor
  · rintro ⟨gx, gy, gz⟩ hgid
    obtain ⟨hx, hy, hz⟩ := (hgrid (gx, gy, gz)).mp hgid
    rw [writtenIndex_eq g o0 o1 o2 o3 hout gx gy gz,
      sub_div_mul_eq_mod gz o3]
    have hq : gz / o3 < o0 := (Nat.div_lt_iff_lt_mul h3).mpr hz
    have hr : gz % o3 < o3 := Nat.mod_lt gz h3
    exact radix_bound (radix_bound (radix_bound hq hx) hy) hr
  · intro f hf
    have h1a : f / o3 < o0 * o1 * o2 := (Nat.div_lt_iff_lt_mul h3).mpr hf
    have h2a : f / o3 / o2 < o0 * o1 := (Nat.div_lt_iff_lt_mul h2).mpr h1a
    have hd0lt : f / o3 / o2 / o1 < o0 := (Nat.div_lt_iff_lt_mul h1).mpr h2a
    have hd3lt : f % o3 < o3 := Nat.mod_lt f h3
    have hgylt : f / o3 % o2 < o2 := Nat.mod_lt _ h2
    have hgxlt : f / o3 / o2 % o1 < o1 := Nat.mod_lt _ h1
    have hgzlt : f / o3 / o2 / o1 * o3 + f % o3 < o0 * o3 :=
      radix_bound hd0lt hd3lt
    have hu : f / o3 / o2 / o1 =
        (f / o3 / o2 / o1 * o3 + f % o3) / o3 ∧
        f % o3 = (f / o3 / o2 / o1 * o3 + f % o3) % o3 :=
      radix_uniq h3 hd3lt rfl
    refine ⟨(f / o3 / o2 % o1, f / o3 % o2,
      f / o3 / o2 / o1 * o3 + f % o3), ⟨?_, ?_⟩, ?_⟩
    · exact (hgrid _).mpr ⟨hgxlt, hgylt, hgzlt⟩
    · rw [writtenIndex_eq g o0 o1 o2 o3 hout, sub_div_mul_eq_mod]
      rw [← hu.1, ← hu.2]
      rw [Nat.div_add_mod' (f / o3 / o2) o1, Nat.div_add_mod' (f / o3) o2,
        Nat.div_add_mod' f o3]
    · rintro ⟨ux, uy, uz⟩ ⟨hu_grid, hu_val⟩
      obtain ⟨hux, huy, huz⟩ := (hgrid _).mp hu_grid
      have hq' : uz / o3 < o0 := (Nat.div_lt_iff_lt_mul h3).mpr huz
      have hr' : uz % o3 < o3 := Nat.mod_lt uz h3
      rw [writtenIndex_eq g o0 o1 o2 o3 hout ux uy uz,
        sub_div_mul_eq_mod uz o3] at hu_val
      have s3 := radix_uniq h3 hr' hu_val
      have s2 := radix_uniq h2 huy s3.1
      have s1 := radix_uniq h1 hux s2.1
      have huzz : uz = uz / o3 * o3 + uz % o3 :=
        (Nat.div_add_mod' uz o3).symm
      have huz_eq : uz = f / o3 / o2 / o1 * o3 + f % o3 := by
        rw [huzz, s1.1, s3.2]
      have hux_eq : ux = f / o3 / o2 % o1 := s1.2
      have huy_eq : uy = f / o3 % o2 := s2.2
      rw [hux_eq, huy_eq, huz_eq]

/-- A 1x2x2x1 geometry (even output height and width). -/
def infoEven : Conv2DInfo :=
  { inShape := [1, 4, 4, 1], outShape := [1, 2, 2, 1], strideHeight := 2,
    strideWidth := 2, dilationHeight := 1, dilationWidth := 1,
    padTop := 0, padLeft := 0, effectiveFilterHeight := 2,
    effectiveFilterWidth := 2, inHeight := 4, inWidth := 4 }

/-- Witness for the amended C4 at `outputShape = [1, 2, 2, 1]`, `f = 3`. -/
theorem write_exactness_amended_witness :
    (infoEven.outShape = [1, 2, 2, 1] ∧ 0 < 1 ∧ 0 < 2 ∧ (2 : Nat) ∣ 2 ∧
      3 < 1 * 2 * 2 * 1) ∧
    (∀ gid, inGrid infoEven gid →
      writtenIndex infoEven gid < 1 * 2 * 2 * 1) ∧
    (∃! gid, inGrid infoEven gid ∧ writtenIndex infoEven gid = 3) :=
  ⟨⟨rfl, by decide, by decide, by decide, by decide⟩,
   (write_exactness_amended infoEven 1 2 2 1 rfl (by decide) (by decide)
     (by decide) (by decide) (by decide) (by decide)).1,
   (write_exactness_amended infoEven 1 2 2 1 rfl (by decide) (by decide)
     (by decide) (by decide) (by decide) (by decide)).2 3 (by decide)⟩

end MaxPoolGen
